import Mathlib

/-!
Verification of the glue logic of an editor extension that previews
EXR/HDR/KTX2 images by shelling out to `oiiotool` and `ktx`.

The embedding models, from `src/extension.ts`:
  * `updateKtx2Preview` — the KTX2 extraction command builder with the
    cubemap fallback retry (external process execution is abstracted as an
    oracle `run : String → Bool` that says whether a command succeeds);
  * `getKtx2Info` — the metadata query with its fallback command variant,
    brace extraction and minimal synthetic header (JSON parsing of the tool
    output is abstracted as an oracle `parse : String → Option KtxInfo`);
  * `adjustExposure` — the oiiotool command construction (the command is
    represented structurally by `OiioCmd`; exposure is modelled on integer
    EV stops so the multiplier lives in `ℚ`);
  * `parseColorConfigInfo` / `getColorConfigInfo` — the color-config text
    parser; the JavaScript regular-expression loop is implemented as a
    character-list scanner with the same match semantics, and the
    JavaScript `String.split` pieces used by the source are implemented by
    `firstSplit`;
  * `renderButtonGroup` — the selection button markup generator.
-/

/-- A KTX2 sub-image selection: mip level, array layer, cube face, depth
slice, as carried by the UI messages. -/
structure Selection where
  level : Nat
  layer : Nat
  face : Nat
  depth : Nat
deriving Repr, DecidableEq

/-- The header block of `ktx info` output; fields are optional because the
source reads them off an untyped JSON object (absent field ↦ `none`). -/
structure KtxHeader where
  pixelWidth : Option Nat
  pixelHeight : Option Nat
  levelCount : Option Nat
  layerCount : Option Nat
  faceCount : Option Nat
  pixelDepth : Option Nat
  vkFormat : Option String
deriving Repr, DecidableEq

/-- The header with every field absent: models the `{}` used for
`info?.header || {}` when no metadata is available. -/
def emptyKtxHeader : KtxHeader :=
  { pixelWidth := none, pixelHeight := none, levelCount := none,
    layerCount := none, faceCount := none, pixelDepth := none,
    vkFormat := none }

/-- Parsed `ktx info` result (the source also keeps a level index, which no
claim touches). -/
structure KtxInfo where
  header : KtxHeader
deriving Repr, DecidableEq

/-- Models `info?.header || {}`. -/
def headerOf (info : Option KtxInfo) : KtxHeader :=
  (info.map KtxInfo.header).getD emptyKtxHeader

/-- Models the JavaScript `(x || 0)` coercion on an optional count. -/
def orZero (o : Option Nat) : Nat := o.getD 0

/-- Models JavaScript `String.prototype.endsWith`. -/
def strEndsWith (s suffix : String) : Bool :=
  suffix.data.isSuffixOf s.data

/-- The extraction target: `previewPath` itself when it already ends in
`.exr`, otherwise `previewPath` with `.exr` appended (line 501 of the
source). -/
def extractPathOf (previewPath : String) : String :=
  if strEndsWith previewPath ".exr" then previewPath else previewPath ++ ".exr"

/-- The face/depth selector the builder appends: face when the header says
cubemap, else depth when `pixelDepth > 1`, else nothing (lines 507-515). -/
def faceOrDepthPart (h : KtxHeader) (sel : Selection) : String :=
  if 1 < orZero h.faceCount then " --face " ++ toString sel.face
  else if 1 < orZero h.pixelDepth then " --depth " ++ toString sel.depth
  else ""

/-- The layer selector: present only when `layerCount > 1` (lines 517-520). -/
def layerPart (h : KtxHeader) (sel : Selection) : String :=
  if 1 < orZero h.layerCount then " --layer " ++ toString sel.layer else ""

/-- The full `ktx extract` command string built by `updateKtx2Preview`. -/
def extractCmd (ktx2Path previewPath : String) (sel : Selection) (h : KtxHeader) : String :=
  "ktx extract --level " ++ toString sel.level ++ faceOrDepthPart h sel
    ++ layerPart h sel
    ++ " \"" ++ ktx2Path ++ "\" \"" ++ extractPathOf previewPath ++ "\""

/-- The reduced retry command used for cubemaps: only level and face
(line 536). -/
def cubemapFallbackCmd (ktx2Path previewPath : String) (sel : Selection) : String :=
  "ktx extract --level " ++ toString sel.level ++ " --face " ++ toString sel.face
    ++ " \"" ++ ktx2Path ++ "\" \"" ++ extractPathOf previewPath ++ "\""

/-- `updateKtx2Preview` (lines 492-558): builds the extraction command,
runs it through the oracle `run`, retries once with the reduced command for
cubemaps, and returns the extraction path on success or the error of the
last failed command. The second component records the commands executed in
order. -/
def updateKtx2Preview (run : String → Bool) (ktx2Path previewPath : String)
    (sel : Selection) (info : Option KtxInfo) :
    Except String String × List String :=
  let header := headerOf info
  let extractPath := extractPathOf previewPath
  let cmd := extractCmd ktx2Path previewPath sel header
  if run cmd then (Except.ok extractPath, [cmd])
  else if 1 < orZero header.faceCount then
    let fb := cubemapFallbackCmd ktx2Path previewPath sel
    if run fb then (Except.ok extractPath, [cmd, fb])
    else (Except.error fb, [cmd, fb])
  else (Except.error cmd, [cmd])

/-- Models the regular expression `\x7b[\s\S]*\x7d` used at line 586: the
substring from the first opening brace to the last closing brace, when the
closing one comes after the opening one. -/
def braceMatch (s : String) : Option String :=
  let l := s.data
  let pre := l.dropWhile (fun c => c != '\x7b')
  let q := (pre.reverse.dropWhile (fun c => c != '\x7d')).reverse
  if q.isEmpty then none else some (String.mk q)

/-- The output text obtained by `getKtx2Info`: the primary `ktx info`
invocation, or the `--format-json:validate=false` variant when the primary
fails, or nothing when both fail (lines 563-579). -/
def ktxInfoOutput (primary fallback : Except String String) : Option String :=
  match primary with
  | Except.ok s => some s
  | Except.error _ =>
    match fallback with
    | Except.ok s => some s
    | Except.error _ => none

/-- The minimal synthetic info returned when metadata cannot be obtained
(lines 595-606). -/
def defaultKtxInfo : KtxInfo :=
  { header :=
    { pixelWidth := some 0, pixelHeight := some 0, levelCount := some 1,
      layerCount := some 1, faceCount := some 1, pixelDepth := some 1,
      vkFormat := some "Unknown" } }

/-- `getKtx2Info` (lines 561-608): try to parse the obtained output; on a
parse failure retry on the brace-delimited substring; any remaining failure
(including failure of both command variants) yields `defaultKtxInfo`.
`parse` abstracts `JSON.parse` plus the interpretation of its result. -/
def getKtx2Info (primary fallback : Except String String)
    (parse : String → Option KtxInfo) : KtxInfo :=
  match ktxInfoOutput primary fallback with
  | none => defaultKtxInfo
  | some out =>
    match parse out with
    | some info => info
    | none =>
      match braceMatch out with
      | some m => (parse m).getD defaultKtxInfo
      | none => defaultKtxInfo

/-- One entry of a display's view list in the color catalog. -/
structure ColorView where
  name : String
  isDefault : Bool
deriving Repr, DecidableEq

/-- One display of the color catalog parsed from `--colorconfiginfo`. -/
structure ColorDisplay where
  name : String
  isDefault : Bool
  views : List ColorView
deriving Repr, DecidableEq

/-- Models the JavaScript `\s` character class (ASCII part). -/
def isWs (c : Char) : Bool :=
  c == ' ' || c == '\t' || c == '\n' || c == '\r' || c == '\x0b' || c == '\x0c'

/-- Models the JavaScript line terminators excluded by `.` and matched by
`$` in multiline mode. -/
def isLineTerm (c : Char) : Bool :=
  c == '\n' || c == '\r' || c == '\u2028' || c == '\u2029'

/-- Infix test on character lists; models `String.prototype.includes`. -/
def listIsInfixOf (p : List Char) : List Char → Bool
  | [] => p.isEmpty
  | c :: t => p.isPrefixOf (c :: t) || listIsInfixOf p t

/-- Substring test on strings (used to state claims about command text). -/
def containsStr (s pat : String) : Bool := listIsInfixOf pat.data s.data

/-- One attempt of the view regular expression `"([^"]+)"( \(\*\))?` at a
position just after an opening quote: returns the view (name, default flag)
and the number of characters consumed after the quote. The default flag is
`viewMatch.includes('(*)')` evaluated on the matched text, as in the
source (line 1404). -/
def matchViewAfterQuote (cs : List Char) : Option ((String × Bool) × Nat) :=
  let name := cs.takeWhile (fun c => c != '"')
  if name.isEmpty then none
  else if (cs.drop name.length).take 1 = ['"'] then
    if (cs.drop (name.length + 1)).take 4 = [' ', '(', '*', ')'] then
      some ((String.mk name,
             listIsInfixOf ['(', '*', ')'] ('"' :: name ++ ['"', ' ', '(', '*', ')'])),
            name.length + 5)
    else
      some ((String.mk name,
             listIsInfixOf ['(', '*', ')'] ('"' :: name ++ ['"'])),
            name.length + 1)
  else none

/-- The global scan of a views line with the view regular expression: find
every non-overlapping match left to right (line 1400). Fuel-indexed so the
recursion is structural; every step consumes at least one character, so
fuel equal to the list length (see `scanViews`) never runs out. -/
def scanViewsFuel : Nat → List Char → List (String × Bool)
  | 0, _ => []
  | _ + 1, [] => []
  | fuel + 1, c :: cs =>
    if c = '"' then
      match matchViewAfterQuote cs with
      | some (v, n) => v :: scanViewsFuel fuel (cs.drop n)
      | none => scanViewsFuel fuel cs
    else scanViewsFuel fuel cs

/-- The views-line scan, seeded with sufficient fuel. -/
def scanViews (l : List Char) : List (String × Bool) :=
  scanViewsFuel l.length l

/-- The `\s+views: (.+)$` tail of one display-regular-expression attempt:
`t1` is the input just past the closing quote, `k` the length of the
matched optional-marker-plus-newline part. Returns the display triple and
the number of characters consumed after the leading `- "`. -/
def afterMarker (name : List Char) (isDef : Bool) (k : Nat) (t1 : List Char) :
    Option ((String × Bool × String) × Nat) :=
  let t2 := t1.drop k
  let ws := t2.takeWhile isWs
  if ws.isEmpty then none
  else
    let t3 := t2.drop ws.length
    if t3.take 7 = ['v', 'i', 'e', 'w', 's', ':', ' '] then
      let t4 := t3.drop 7
      let viewsLine := t4.takeWhile (fun c => !(isLineTerm c))
      if viewsLine.isEmpty then none
      else some ((String.mk name, isDef, String.mk viewsLine),
                 name.length + 1 + k + ws.length + 7 + viewsLine.length)
    else none

/-- One attempt of the display regular expression
`- "([^"]+)"( \(\*\))?\n\s+views: (.+)$` at a position just past the
leading `- "`: returns the display name, default marker, captured views
line, and the number of characters consumed after `- "`. -/
def matchAfterQuote (cs : List Char) : Option ((String × Bool × String) × Nat) :=
  let name := cs.takeWhile (fun c => c != '"')
  if name.isEmpty then none
  else if (cs.drop name.length).take 1 = ['"'] then
    let t1 := cs.drop (name.length + 1)
    if t1.take 5 = [' ', '(', '*', ')', '\n'] then afterMarker name true 5 t1
    else if t1.take 1 = ['\n'] then afterMarker name false 1 t1
    else none
  else none

/-- The global scan of the display section with the display regular
expression: find every non-overlapping match left to right (line 1394).
Fuel-indexed so the recursion is structural; every step consumes at least
one character, so fuel equal to the list length (see `scanDisplays`) never
runs out. -/
def scanDisplaysFuel : Nat → List Char → List (String × Bool × String)
  | 0, _ => []
  | _ + 1, [] => []
  | fuel + 1, c :: cs =>
    if c = '-' ∧ cs.take 2 = [' ', '"'] then
      match matchAfterQuote (cs.drop 2) with
      | some (d, n) => d :: scanDisplaysFuel fuel ((cs.drop 2).drop n)
      | none => scanDisplaysFuel fuel cs
    else scanDisplaysFuel fuel cs

/-- The display-section scan, seeded with sufficient fuel. -/
def scanDisplays (l : List Char) : List (String × Bool × String) :=
  scanDisplaysFuel l.length l

/-- Split a character list at the first occurrence of `sep`, returning the
parts before and after it; `none` when `sep` does not occur. Building block
for the JavaScript `String.split` uses in the source. -/
def firstSplit (sep : List Char) : List Char → Option (List Char × List Char)
  | [] => if sep.isPrefixOf ([] : List Char) then some ([], []) else none
  | c :: cs =>
    if sep.isPrefixOf (c :: cs) then some ([], (c :: cs).drop sep.length)
    else (firstSplit sep cs).map (fun p => (c :: p.1, p.2))

/-- Models `output.split('Known displays:')[1]?.split('Named transforms:')[0]`
(line 1385): the segment between the first and second occurrence of
`Known displays:` (or to the end), cut before the first occurrence of
`Named transforms:` within it; `none` when `Known displays:` is absent. -/
def displaySectionOf (output : String) : Option (List Char) :=
  match firstSplit "Known displays:".data output.data with
  | none => none
  | some q =>
    let seg1 :=
      match firstSplit "Known displays:".data q.2 with
      | none => q.2
      | some p => p.1
    some
      (match firstSplit "Named transforms:".data seg1 with
       | none => seg1
       | some p => p.1)

/-- `parseColorConfigInfo` (lines 1382-1412): extract the display section,
return `[]` when it is absent or empty (the JavaScript falsy check), then
run the display scan and, per display, the view scan on its views line. -/
def parseColorConfigInfo (output : String) : List ColorDisplay :=
  match displaySectionOf output with
  | none => []
  | some sec =>
    if sec.isEmpty then []
    else
      (scanDisplays sec).map (fun t =>
        { name := t.1, isDefault := t.2.1,
          views := (scanViews t.2.2.data).map
            (fun v => { name := v.1, isDefault := v.2 }) })

/-- The hard-coded single-entry catalog returned when the color-config
invocation fails (lines 1424-1430). -/
def fallbackColorDisplays : List ColorDisplay :=
  [{ name := "sRGB - Display", isDefault := true,
     views := [{ name := "ACES 1.0 - SDR Video", isDefault := true }] }]

/-- `getColorConfigInfo` (lines 1417-1432): parse the command output, or
return the fallback catalog when the invocation fails. The `Except` value
abstracts the `oiiotool --colorconfiginfo` invocation outcome. -/
def getColorConfigInfo (outcome : Except String String) : List ColorDisplay :=
  match outcome with
  | Except.ok out => parseColorConfigInfo out
  | Except.error _ => fallbackColorDisplays

/-- Characters we allow in display/view names of a well-formed catalog:
letters, digits, space, hyphen, dot, underscore. These cover the names the
external tool produces and exclude every character with a structural role
in the text layout. -/
def goodChar (c : Char) : Bool :=
  c.isAlphanum || c == ' ' || c == '-' || c == '.' || c == '_'

/-- A non-empty name made of `goodChar`s. -/
def goodName (s : String) : Prop :=
  s.data ≠ [] ∧ ∀ c ∈ s.data, goodChar c = true

/-- Rendering of one view onto a views line, quoted, with the `(*)`
default marker: the fixed text layout parsed by the source. -/
def renderView (v : ColorView) : List Char :=
  '"' :: v.name.data ++ ['"'] ++ (if v.isDefault then [' ', '(', '*', ')'] else [])

/-- Views line: rendered views joined by a comma and a space. -/
def renderViewsLine : List ColorView → List Char
  | [] => []
  | [v] => renderView v
  | v :: vs => renderView v ++ [',', ' '] ++ renderViewsLine vs

/-- The characters of one display block after the leading `- "`, up to but
not including the final newline: name, closing quote, optional default
marker, newline, two-space indent, `views: `, views line. -/
def displayBodyCore (d : ColorDisplay) : List Char :=
  d.name.data
    ++ '"' :: ((if d.isDefault then [' ', '(', '*', ')'] else [])
      ++ '\n' :: ' ' :: ' ' :: (['v', 'i', 'e', 'w', 's', ':', ' ']
        ++ renderViewsLine d.views))

/-- Rendering of one display block:
`- "name" (*)\n  views: <views line>\n`. -/
def renderDisplay (d : ColorDisplay) : List Char :=
  '-' :: ' ' :: '"' :: displayBodyCore d ++ ['\n']

/-- Rendering of a whole catalog: the display blocks in order. -/
def renderCatalog : List ColorDisplay → List Char
  | [] => []
  | d :: ds => renderDisplay d ++ renderCatalog ds

/-- A well-formed catalog: every display has a good name and a non-empty
view list of good names. -/
def wellFormedCatalog (ds : List ColorDisplay) : Prop :=
  ∀ d ∈ ds, goodName d.name ∧ d.views ≠ [] ∧ ∀ v ∈ d.views, goodName v.name

/-- The color transform step of an oiiotool invocation: either the fixed
linear-to-sRGB conversion or an OCIO display/view transform. -/
inductive ColorXform where
  | colorconvert (src dst : String)
  | ociodisplay (display view : String)
deriving Repr, DecidableEq

/-- Structural form of the oiiotool command built by `adjustExposure`:
input, exposure multiplier, color transform, output. -/
structure OiioCmd where
  input : String
  mulc : ℚ
  xform : ColorXform
  output : String
deriving Repr, DecidableEq

/-- `adjustExposure` (lines 181-218): multiplier `2^EV`; the sentinel view
`No Tonemapping` selects `--colorconvert lin_rec709 sRGB`, every other view
selects `--ociodisplay "<display>" "<view>"`. Exposure is modelled on
integer EV stops. -/
def adjustExposureCmd (inputPath outputPath : String) (exposure : ℤ)
    (display view : String) : OiioCmd :=
  let exposureVal : ℚ := 2 ^ exposure
  if view = "No Tonemapping" then
    { input := inputPath, mulc := exposureVal,
      xform := ColorXform.colorconvert "lin_rec709" "sRGB",
      output := outputPath }
  else
    { input := inputPath, mulc := exposureVal,
      xform := ColorXform.ociodisplay display view,
      output := outputPath }

/-- Decimal rendering of the multiplier, as far as the claims need it
(integral values render like JavaScript numbers). -/
def ratStr (q : ℚ) : String :=
  if q.den = 1 then toString q.num else toString q

/-- The flat command string for an `OiioCmd`, following the two template
literals of `adjustExposure` (lines 199 and 208). -/
def renderOiioCmd (c : OiioCmd) : String :=
  "oiiotool \"" ++ c.input ++ "\" --mulc " ++ ratStr c.mulc
    ++ (match c.xform with
        | ColorXform.colorconvert a b => " --colorconvert " ++ a ++ " " ++ b
        | ColorXform.ociodisplay d v => " --ociodisplay \"" ++ d ++ "\" \"" ++ v ++ "\"")
    ++ " -o \"" ++ c.output ++ "\""

/-- Models the JavaScript `a || b` chain on object values. -/
def jsOr {α : Type} (a b : Option α) : Option α :=
  match a with
  | some x => some x
  | none => b

/-- `colorDisplays.find(d => d.isDefault) || colorDisplays[0]` (line 283). -/
def defaultDisplayOf (ds : List ColorDisplay) : Option ColorDisplay :=
  jsOr (ds.find? (fun d => d.isDefault)) ds.head?

/-- `defaultDisplay?.views.find(v => v.isDefault) || defaultDisplay?.views[0]`
(line 284). -/
def defaultViewOf (dd : Option ColorDisplay) : Option ColorView :=
  jsOr (dd.bind fun d => d.views.find? (fun v => v.isDefault))
       (dd.bind fun d => d.views.head?)

/-- The oiiotool command issued for the initial preview of an EXR/HDR file
(lines 286-293): exposure 0 and the discovered default display and view,
with the source's hard-coded fallback names. -/
def initialPreviewCmd (fsPath previewPath : String)
    (displays : List ColorDisplay) : OiioCmd :=
  let dd := defaultDisplayOf displays
  let dv := defaultViewOf dd
  adjustExposureCmd fsPath previewPath 0
    ((dd.map (fun d => d.name)).getD "sRGB - Display")
    ((dv.map (fun v => v.name)).getD "ACES 1.0 - SDR Video")

/-- The CSS class of button `i`: `preview-btn`, with ` selected` appended
exactly when `i === selected` (line 1331). -/
def buttonClass (selected : ℤ) (i : Nat) : String :=
  "preview-btn" ++ (if (i : ℤ) = selected then " selected" else "")

/-- One button of a selection button group (line 1331). -/
def buttonHtml (id : String) (selected : ℤ) (i : Nat) : String :=
  "<button type=\"button\" data-value=\"" ++ toString i
    ++ "\" class=\"" ++ buttonClass selected i
    ++ "\" data-group=\"" ++ id ++ "\">" ++ toString i ++ "</button>"

/-- The buttons of a group: one per index `0 .. count-1`, in order
(`Array.from(\x7blength: count\x7d, (_, i) => ...)`). -/
def buttonGroupButtons (id : String) (count : Nat) (selected : ℤ) : List String :=
  (List.range count).map (buttonHtml id selected)

/-- `renderButtonGroup` (lines 1329-1333): the wrapping div around the
joined buttons. -/
def renderButtonGroup (id : String) (count : Nat) (selected : ℤ) : String :=
  "<div id=\"" ++ id ++ "-group\" style=\"margin: 4px 0; display: flex; flex-wrap: wrap; gap: 4px;\">"
    ++ String.join (buttonGroupButtons id count selected) ++ "</div>"

/-- A concrete cubemap header: `faceCount = 6`, `pixelDepth = 0`, used by
the scenario of the spec. -/
def cubeHeader : KtxHeader :=
  { pixelWidth := some 512, pixelHeight := some 512, levelCount := some 1,
    layerCount := none, faceCount := some 6, pixelDepth := some 0,
    vkFormat := none }

/-- A concrete realistic color catalog used to instantiate witnesses. -/
def demoCatalog : List ColorDisplay :=
  [{ name := "sRGB - Display", isDefault := true,
     views := [{ name := "ACES 1.0 - SDR Video", isDefault := true },
               { name := "Raw", isDefault := false }] },
   { name := "Rec.1886 Rec.709 - Display", isDefault := false,
     views := [{ name := "ACES 1.0 - SDR Video", isDefault := true }] }]

/-- A concrete header with several array layers, used in witnesses. -/
def layeredHeader : KtxHeader :=
  { emptyKtxHeader with layerCount := some 4 }

theorem isPrefixOf_self_append (x y : List Char) : x.isPrefixOf (x ++ y) = true := by
  induction x with
  | nil => simp [List.isPrefixOf]
  | cons a as ih => simp [List.isPrefixOf, ih]

theorem isSuffixOf_append_self (l₁ l₂ : List Char) : l₂.isSuffixOf (l₁ ++ l₂) = true := by
  simp [List.isSuffixOf]

theorem strEndsWith_append (p : String) : strEndsWith (p ++ ".exr") ".exr" = true := by
  simp only [strEndsWith, String.data_append]
  exact isSuffixOf_append_self _ _

/-- C1: for every cubemap header (`faceCount > 1`) and every selection, the
extraction command builder emits the `--face` selector and never a
`--depth` selector, regardless of `pixelDepth`; in the spec scenario
(faceCount 6, pixelDepth 0, level 0, face 3) the command is exactly
`ktx extract --level 0 --face 3 "cube.ktx2" "<tmp>.exr"`, which does not
contain `--depth`. -/
theorem ktx_cubemap_face_no_depth (h : KtxHeader) (sel : Selection)
    (hcube : 1 < orZero h.faceCount) :
    faceOrDepthPart h sel = " --face " ++ toString sel.face
    ∧ extractCmd "cube.ktx2" "/tmp/preview_cube.ktx2.png" ⟨0, 0, 3, 0⟩ cubeHeader
        = "ktx extract --level 0 --face 3 \"cube.ktx2\" \"/tmp/preview_cube.ktx2.png.exr\""
    ∧ containsStr
        (extractCmd "cube.ktx2" "/tmp/preview_cube.ktx2.png" ⟨0, 0, 3, 0⟩ cubeHeader)
        "--depth" = false := by
  refine ⟨?_, by decide, by decide⟩
  unfold faceOrDepthPart
  rw [if_pos hcube]

theorem ktx_cubemap_face_no_depth_witness :
    faceOrDepthPart cubeHeader ⟨0, 0, 3, 0⟩ = " --face " ++ toString (3 : Nat)
    ∧ extractCmd "cube.ktx2" "/tmp/preview_cube.ktx2.png" ⟨0, 0, 3, 0⟩ cubeHeader
        = "ktx extract --level 0 --face 3 \"cube.ktx2\" \"/tmp/preview_cube.ktx2.png.exr\""
    ∧ containsStr
        (extractCmd "cube.ktx2" "/tmp/preview_cube.ktx2.png" ⟨0, 0, 3, 0⟩ cubeHeader)
        "--depth" = false :=
  ktx_cubemap_face_no_depth cubeHeader ⟨0, 0, 3, 0⟩ (by decide)

/-- C2: when the primary extraction command fails, a cubemap header causes
exactly one retry with the reduced level+face command (no layer, no depth),
whose error is the one propagated if it also fails; a non-cubemap header
propagates the primary error immediately with no retry. -/
theorem ktx_cubemap_retry_policy (run : String → Bool) (p o : String)
    (sel : Selection) (info : Option KtxInfo)
    (hfail : run (extractCmd p o sel (headerOf info)) = false) :
    (1 < orZero (headerOf info).faceCount →
      (updateKtx2Preview run p o sel info).2
          = [extractCmd p o sel (headerOf info), cubemapFallbackCmd p o sel]
      ∧ cubemapFallbackCmd p o sel
          = "ktx extract --level " ++ toString sel.level ++ " --face " ++ toString sel.face
              ++ " \"" ++ p ++ "\" \"" ++ extractPathOf o ++ "\""
      ∧ (updateKtx2Preview run p o sel info).1
          = (if run (cubemapFallbackCmd p o sel) then Except.ok (extractPathOf o)
             else Except.error (cubemapFallbackCmd p o sel)))
    ∧ (¬ 1 < orZero (headerOf info).faceCount →
      (updateKtx2Preview run p o sel info).2 = [extractCmd p o sel (headerOf info)]
      ∧ (updateKtx2Preview run p o sel info).1
          = Except.error (extractCmd p o sel (headerOf info))) := by
  constructor
  · intro hcube
    refine ⟨?_, rfl, ?_⟩ <;>
      · simp [updateKtx2Preview, hfail, hcube]
        split <;> simp
  · intro hflat
    constructor <;> simp [updateKtx2Preview, hfail, hflat]

theorem ktx_cubemap_retry_policy_witness :
    (updateKtx2Preview (fun _ => false) "cube.ktx2" "/tmp/p" ⟨0, 0, 3, 0⟩
        (some ⟨cubeHeader⟩)).2
      = [extractCmd "cube.ktx2" "/tmp/p" ⟨0, 0, 3, 0⟩ (headerOf (some ⟨cubeHeader⟩)),
         cubemapFallbackCmd "cube.ktx2" "/tmp/p" ⟨0, 0, 3, 0⟩]
    ∧ (updateKtx2Preview (fun _ => false) "cube.ktx2" "/tmp/p" ⟨0, 0, 3, 0⟩
        (some ⟨cubeHeader⟩)).1
      = Except.error (cubemapFallbackCmd "cube.ktx2" "/tmp/p" ⟨0, 0, 3, 0⟩) := by
  have t := ktx_cubemap_retry_policy (fun _ => false) "cube.ktx2" "/tmp/p" ⟨0, 0, 3, 0⟩
    (some ⟨cubeHeader⟩) (by decide)
  have t1 := t.1 (by decide)
  exact ⟨t1.1, by rw [t1.2.2]; simp⟩

/-- C3: whenever both `ktx info` command variants fail, or the obtained
output cannot be parsed even after extracting its brace-delimited
substring, `getKtx2Info` returns (without throwing: the model is a total
function) the minimal synthetic info, whose header has `levelCount = 1`,
`layerCount = 1`, `faceCount = 1` and `pixelDepth = 1`. -/
theorem ktx_info_fallback_header (primary fallback : Except String String)
    (parse : String → Option KtxInfo)
    (h : ktxInfoOutput primary fallback = none
         ∨ ∃ out, ktxInfoOutput primary fallback = some out ∧ parse out = none
             ∧ ∀ m, braceMatch out = some m → parse m = none) :
    getKtx2Info primary fallback parse = defaultKtxInfo
    ∧ (getKtx2Info primary fallback parse).header.levelCount = some 1
    ∧ (getKtx2Info primary fallback parse).header.layerCount = some 1
    ∧ (getKtx2Info primary fallback parse).header.faceCount = some 1
    ∧ (getKtx2Info primary fallback parse).header.pixelDepth = some 1 := by
  have hd : getKtx2Info primary fallback parse = defaultKtxInfo := by
    unfold getKtx2Info
    rcases h with h | ⟨out, hout, hp, hbm⟩
    · rw [h]
    · rw [hout]
      dsimp only
      rw [hp]
      dsimp only
      cases hbm2 : braceMatch out with
      | none => rfl
      | some m =>
        dsimp only
        rw [hbm m hbm2]
        rfl
  exact ⟨hd, by rw [hd]; rfl, by rw [hd]; rfl, by rw [hd]; rfl, by rw [hd]; rfl⟩

theorem ktx_info_fallback_header_witness :
    getKtx2Info (Except.error "spawn ktx ENOENT") (Except.error "spawn ktx ENOENT")
        (fun _ => none) = defaultKtxInfo
    ∧ (getKtx2Info (Except.error "spawn ktx ENOENT") (Except.error "spawn ktx ENOENT")
        (fun _ => none)).header.levelCount = some 1
    ∧ (getKtx2Info (Except.error "spawn ktx ENOENT") (Except.error "spawn ktx ENOENT")
        (fun _ => none)).header.layerCount = some 1
    ∧ (getKtx2Info (Except.error "spawn ktx ENOENT") (Except.error "spawn ktx ENOENT")
        (fun _ => none)).header.faceCount = some 1
    ∧ (getKtx2Info (Except.error "spawn ktx ENOENT") (Except.error "spawn ktx ENOENT")
        (fun _ => none)).header.pixelDepth = some 1 :=
  ktx_info_fallback_header _ _ _ (Or.inl rfl)

/-- C7: the extraction command carries no `--layer` selector when the
header's `layerCount` is absent, `0` or `1` (more generally whenever it is
at most 1 after the `|| 0` coercion) — the selector is omitted, not passed
as 0 — and carries ` --layer <selection.layer>` exactly when
`layerCount > 1`. -/
theorem ktx_layer_flag_policy (h : KtxHeader) (sel : Selection) :
    (orZero h.layerCount ≤ 1 → layerPart h sel = "")
    ∧ (1 < orZero h.layerCount →
        layerPart h sel = " --layer " ++ toString sel.layer)
    ∧ (h.layerCount = none ∨ h.layerCount = some 0 ∨ h.layerCount = some 1 →
        layerPart h sel = "") := by
  refine ⟨?_, ?_, ?_⟩
  · intro hle
    unfold layerPart
    rw [if_neg (by omega)]
  · intro hgt
    unfold layerPart
    rw [if_pos hgt]
  · intro h0
    unfold layerPart
    rw [if_neg]
    rcases h0 with h0 | h0 | h0 <;> simp [orZero, h0]

theorem ktx_layer_flag_policy_witness :
    layerPart emptyKtxHeader ⟨0, 0, 0, 0⟩ = ""
    ∧ layerPart layeredHeader ⟨1, 2, 3, 4⟩ = " --layer " ++ toString (2 : Nat) := by
  refine ⟨(ktx_layer_flag_policy emptyKtxHeader ⟨0, 0, 0, 0⟩).1 (by decide),
          (ktx_layer_flag_policy layeredHeader ⟨1, 2, 3, 4⟩).2.1 (by decide)⟩

/-- C9: the extraction output path always ends in `.exr` — it is the
preview path itself when that already ends in `.exr` and the preview path
with `.exr` appended otherwise — a successful `updateKtx2Preview` returns
exactly this path, and it is exactly the quoted output target of the
extraction command. -/
theorem ktx_extract_path_exr (run : String → Bool) (p o : String)
    (sel : Selection) (info : Option KtxInfo) :
    strEndsWith (extractPathOf o) ".exr" = true
    ∧ (strEndsWith o ".exr" = true → extractPathOf o = o)
    ∧ (strEndsWith o ".exr" = false → extractPathOf o = o ++ ".exr")
    ∧ (∀ x, (updateKtx2Preview run p o sel info).1 = Except.ok x →
        x = extractPathOf o)
    ∧ extractCmd p o sel (headerOf info)
        = ("ktx extract --level " ++ toString sel.level
            ++ faceOrDepthPart (headerOf info) sel ++ layerPart (headerOf info) sel
            ++ " \"" ++ p ++ "\" \"") ++ extractPathOf o ++ "\"" := by
  refine ⟨?_, ?_, ?_, ?_, ?_⟩
  · unfold extractPathOf
    split
    · assumption
    · exact strEndsWith_append o
  · intro he
    unfold extractPathOf
    rw [if_pos he]
  · intro he
    unfold extractPathOf
    rw [if_neg (by simp [he])]
  · intro x
    simp only [updateKtx2Preview]
    split <;> (try split) <;> (try split) <;> intro hx <;> simp_all
  · unfold extractCmd
    simp [String.append_assoc]

theorem ktx_extract_path_exr_witness :
    strEndsWith (extractPathOf "/tmp/preview_cube.ktx2.png") ".exr" = true
    ∧ (∀ x, (updateKtx2Preview (fun _ => true) "cube.ktx2" "/tmp/preview_cube.ktx2.png"
        ⟨0, 0, 3, 0⟩ (some ⟨cubeHeader⟩)).1 = Except.ok x →
          x = extractPathOf "/tmp/preview_cube.ktx2.png") := by
  have t := ktx_extract_path_exr (fun _ => true) "cube.ktx2" "/tmp/preview_cube.ktx2.png"
    ⟨0, 0, 3, 0⟩ (some ⟨cubeHeader⟩)
  exact ⟨t.1, t.2.2.2.1⟩

/-- C5: the view argument `No Tonemapping` makes `adjustExposure` build the
command with `--colorconvert lin_rec709 sRGB` and no `--ociodisplay`; every
other view yields `--ociodisplay "<display>" "<view>"` and no
`--colorconvert`; both branches carry the `--mulc` exposure multiplier. -/
theorem adjust_exposure_view_branching (i o : String) (ev : ℤ) (d v : String) :
    (v = "No Tonemapping" →
      (adjustExposureCmd i o ev d v).xform = ColorXform.colorconvert "lin_rec709" "sRGB")
    ∧ (v ≠ "No Tonemapping" →
      (adjustExposureCmd i o ev d v).xform = ColorXform.ociodisplay d v)
    ∧ (adjustExposureCmd i o ev d v).mulc = 2 ^ ev
    ∧ containsStr
        (renderOiioCmd (adjustExposureCmd "in.exr" "/tmp/out.png" 0 "sRGB - Display" "No Tonemapping"))
        "--colorconvert lin_rec709 sRGB" = true
    ∧ containsStr
        (renderOiioCmd (adjustExposureCmd "in.exr" "/tmp/out.png" 0 "sRGB - Display" "No Tonemapping"))
        "--ociodisplay" = false
    ∧ containsStr
        (renderOiioCmd (adjustExposureCmd "in.exr" "/tmp/out.png" 0 "sRGB - Display" "ACES 1.0 - SDR Video"))
        "--ociodisplay \"sRGB - Display\" \"ACES 1.0 - SDR Video\"" = true
    ∧ containsStr
        (renderOiioCmd (adjustExposureCmd "in.exr" "/tmp/out.png" 0 "sRGB - Display" "ACES 1.0 - SDR Video"))
        "--colorconvert" = false
    ∧ containsStr
        (renderOiioCmd (adjustExposureCmd "in.exr" "/tmp/out.png" 0 "sRGB - Display" "No Tonemapping"))
        "--mulc" = true
    ∧ containsStr
        (renderOiioCmd (adjustExposureCmd "in.exr" "/tmp/out.png" 0 "sRGB - Display" "ACES 1.0 - SDR Video"))
        "--mulc" = true := by
  refine ⟨?_, ?_, ?_, by decide, by decide, by decide, by decide, by decide, by decide⟩
  · intro hv
    unfold adjustExposureCmd
    rw [if_pos hv]
  · intro hv
    unfold adjustExposureCmd
    rw [if_neg hv]
  · unfold adjustExposureCmd
    split <;> rfl

theorem adjust_exposure_view_branching_witness :
    (adjustExposureCmd "in.exr" "/tmp/out.png" 0 "sRGB - Display" "No Tonemapping").xform
        = ColorXform.colorconvert "lin_rec709" "sRGB"
    ∧ (adjustExposureCmd "in.exr" "/tmp/out.png" 0 "sRGB - Display" "ACES 1.0 - SDR Video").xform
        = ColorXform.ociodisplay "sRGB - Display" "ACES 1.0 - SDR Video" :=
  ⟨(adjust_exposure_view_branching "in.exr" "/tmp/out.png" 0 "sRGB - Display"
      "No Tonemapping").1 rfl,
   (adjust_exposure_view_branching "in.exr" "/tmp/out.png" 0 "sRGB - Display"
      "ACES 1.0 - SDR Video").2.1 (by decide)⟩

/-- C6: the `--mulc` multiplier equals `2^EV` for every integer EV; EV = 0
yields multiplier 1; the initial preview request uses exposure 0 with the
discovered default display/view, so its command contains `--mulc 1`. -/
theorem adjust_exposure_multiplier (i o f p d v : String)
    (displays : List ColorDisplay) (ev : ℤ) :
    (adjustExposureCmd i o ev d v).mulc = 2 ^ ev
    ∧ (adjustExposureCmd i o 0 d v).mulc = 1
    ∧ (initialPreviewCmd f p displays).mulc = 1
    ∧ initialPreviewCmd f p displays
        = adjustExposureCmd f p 0
            (((defaultDisplayOf displays).map (fun x => x.name)).getD "sRGB - Display")
            (((defaultViewOf (defaultDisplayOf displays)).map (fun x => x.name)).getD
              "ACES 1.0 - SDR Video")
    ∧ containsStr
        (renderOiioCmd (initialPreviewCmd "foo.exr" "/tmp/preview_foo.exr.png" demoCatalog))
        "--mulc 1" = true := by
  have hmul : ∀ a b c d' : String, (adjustExposureCmd a b 0 c d').mulc = 1 := by
    intro a b c d'
    unfold adjustExposureCmd
    split <;> exact zpow_zero 2
  refine ⟨?_, hmul i o d v, ?_, rfl, by decide⟩
  · unfold adjustExposureCmd
    split <;> rfl
  · exact hmul f p _ _

theorem buttonClass_selected_iff (selected : ℤ) (i : Nat) :
    (buttonClass selected i == "preview-btn selected") = decide ((i : ℤ) = selected) := by
  by_cases hc : (i : ℤ) = selected <;> simp [buttonClass, hc]

/-- C10: the button group for `(id, count, selected)` has exactly `count`
buttons, the button at index `i` carries data-value `i` (so the values run
0 .. count-1 in increasing order), its class contains ` selected` exactly
when `i = selected`, and the number of selected buttons is 1 when
`0 ≤ selected < count` and 0 otherwise. -/
theorem render_button_group_selected (id : String) (count : Nat) (selected : ℤ) :
    (buttonGroupButtons id count selected).length = count
    ∧ (∀ i, i < count →
        (buttonGroupButtons id count selected)[i]? = some (buttonHtml id selected i))
    ∧ (∀ i, i < count →
        (buttonClass selected i = "preview-btn selected" ↔ (i : ℤ) = selected))
    ∧ ((List.range count).filter
         (fun i : Nat => buttonClass selected i == "preview-btn selected")).length
        = (if 0 ≤ selected ∧ selected < (count : ℤ) then 1 else 0) := by
  refine ⟨by simp [buttonGroupButtons], ?_, ?_, ?_⟩
  · intro i hi
    simp [buttonGroupButtons, List.getElem?_map, List.getElem?_range hi]
  · intro i _
    have := buttonClass_selected_iff selected i
    constructor
    · intro he
      have : decide ((i : ℤ) = selected) = true := by
        rw [← buttonClass_selected_iff]
        simp [he]
      exact of_decide_eq_true this
    · intro he
      simp [buttonClass, he]
  · induction count with
    | zero =>
      simp only [List.range_zero, List.filter_nil, List.length_nil]
      split_ifs with h
      · omega
      · rfl
    | succ n ih =>
      rw [List.range_succ, List.filter_append, List.length_append, ih,
          List.filter_singleton, buttonClass_selected_iff]
      by_cases hn : ((n : ℤ) = selected)
      · rw [decide_eq_true hn]
        simp only [cond_true, List.length_singleton]
        split_ifs <;> omega
      · rw [decide_eq_false hn]
        simp only [cond_false, List.length_nil]
        split_ifs <;> omega

theorem render_button_group_selected_witness :
    (buttonGroupButtons "face" 6 3).length = 6
    ∧ (buttonGroupButtons "face" 6 3)[3]? = some (buttonHtml "face" 3 3)
    ∧ (buttonClass 3 3 = "preview-btn selected" ↔ ((3 : Nat) : ℤ) = 3)
    ∧ ((List.range 6).filter
         (fun i : Nat => buttonClass 3 i == "preview-btn selected")).length
        = (if 0 ≤ (3 : ℤ) ∧ (3 : ℤ) < ((6 : Nat) : ℤ) then 1 else 0) := by
  have t := render_button_group_selected "face" 6 3
  exact ⟨t.1, t.2.1 3 (by decide), t.2.2.1 3 (by decide), t.2.2.2⟩

/-- C4 counterexample: the claim promises at least one display entry for
every outcome of the color-config query, but a successful invocation whose
output lacks a parseable `Known displays:` block yields the empty catalog:
`getColorConfigInfo (ok "")` has no display at all. -/
theorem color_config_not_always_nonempty :
    ¬ (∀ outcome : Except String String,
        0 < (getColorConfigInfo outcome).length
        ∧ ∀ d ∈ getColorConfigInfo outcome, 0 < d.views.length) := by
  intro hall
  have h0 : getColorConfigInfo (Except.ok "") = [] := by decide
  have h1 := (hall (Except.ok "")).1
  rw [h0] at h1
  simp at h1

/-- C4 (amended): when the color-config invocation fails,
`getColorConfigInfo` returns the hard-coded single-entry fallback — exactly
one display carrying exactly one view — so the UI has a selectable
display/view in that case; when the invocation succeeds the parse result is
returned as is (and can be empty). -/
theorem color_config_invocation_failure_fallback (e : String) :
    getColorConfigInfo (Except.error e) = fallbackColorDisplays
    ∧ (getColorConfigInfo (Except.error e)).length = 1
    ∧ (∀ d ∈ getColorConfigInfo (Except.error e), d.views.length = 1)
    ∧ (∀ out : String, getColorConfigInfo (Except.ok out) = parseColorConfigInfo out) := by
  refine ⟨rfl, rfl, ?_, fun _ => rfl⟩
  intro d hd
  simp only [getColorConfigInfo, fallbackColorDisplays, List.mem_singleton] at hd
  rw [hd]
  rfl

theorem color_config_invocation_failure_fallback_witness :
    getColorConfigInfo (Except.error "spawn oiiotool ENOENT") = fallbackColorDisplays
    ∧ (getColorConfigInfo (Except.error "spawn oiiotool ENOENT")).length = 1
    ∧ (∀ d ∈ getColorConfigInfo (Except.error "spawn oiiotool ENOENT"), d.views.length = 1)
    ∧ (∀ out : String,
        getColorConfigInfo (Except.ok out) = parseColorConfigInfo out) :=
  color_config_invocation_failure_fallback "spawn oiiotool ENOENT"
theorem takeWhile_append_not (p : Char → Bool) (A : List Char) (b : Char) (T : List Char)
    (hA : ∀ a ∈ A, p a = true) (hb : p b = false) :
    (A ++ b :: T).takeWhile p = A := by
  induction A with
  | nil => simp [List.takeWhile_cons, hb]
  | cons a A' ih =>
    have ha : p a = true := hA a (by simp)
    simp [List.takeWhile_cons, ha, ih (fun x hx => hA x (by simp [hx]))]

theorem drop_append_cons (A : List Char) (b : Char) (T : List Char) :
    (A ++ b :: T).drop A.length = b :: T :=
  List.drop_left A (b :: T)

theorem drop_append_cons_succ (A : List Char) (b : Char) (T : List Char) :
    (A ++ b :: T).drop (A.length + 1) = T := by
  have h1 : A ++ b :: T = (A ++ [b]) ++ T := by simp
  have h2 : (A ++ [b]).length = A.length + 1 := by simp
  rw [h1, ← h2, List.drop_left]

theorem goodChar_spec (c : Char) (h : goodChar c = true) :
    c ≠ '"' ∧ c ≠ '(' ∧ isLineTerm c = false := by
  refine ⟨?_, ?_, ?_⟩
  · rintro rfl; exact absurd h (by decide)
  · rintro rfl; exact absurd h (by decide)
  · by_contra hlt
    rw [Bool.not_eq_false] at hlt
    simp [isLineTerm] at hlt
    rcases hlt with ((rfl | rfl) | rfl) | rfl <;> exact absurd h (by decide)

theorem goodChar_bne_quote (c : Char) (h : goodChar c = true) : (c != '"') = true := by
  simp [bne_iff_ne]
  exact (goodChar_spec c h).1

theorem listIsInfixOf_append_left (p l x : List Char) (h : listIsInfixOf p x = true) :
    listIsInfixOf p (l ++ x) = true := by
  induction l with
  | nil => simpa using h
  | cons c l' ih => simp [listIsInfixOf, ih]

theorem listIsInfixOf_refl_append (a : Char) (p' t : List Char) :
    listIsInfixOf (a :: p') ((a :: p') ++ t) = true := by
  simp [listIsInfixOf, isPrefixOf_self_append]

theorem paren_infix_false (l : List Char) (h : '(' ∉ l) :
    listIsInfixOf ['(', '*', ')'] l = false := by
  induction l with
  | nil => rfl
  | cons c t ih =>
    have hc : c ≠ '(' := fun he => h (by simp [he])
    have ht : '(' ∉ t := fun he => h (by simp [he])
    simp [listIsInfixOf, List.isPrefixOf, ih ht]
    intro he
    exact absurd he.symm hc

theorem isEmpty_false_of_ne_nil {A : List Char} (h : A ≠ []) : A.isEmpty = false := by
  cases A with
  | nil => exact absurd rfl h
  | cons a t => rfl

theorem matchView_marker (A S' : List Char) (hA : A ≠ [])
    (hgood : ∀ c ∈ A, goodChar c = true) :
    matchViewAfterQuote (A ++ '"' :: ' ' :: '(' :: '*' :: ')' :: S')
      = some ((String.mk A, true), A.length + 5) := by
  have hname : (A ++ '"' :: (' ' :: '(' :: '*' :: ')' :: S')).takeWhile (fun c => c != '"') = A :=
    takeWhile_append_not _ _ _ _ (fun a ha => goodChar_bne_quote a (hgood a ha)) (by decide)
  have hinf : listIsInfixOf ['(', '*', ')'] ('"' :: A ++ ['"', ' ', '(', '*', ')']) = true := by
    have he : '"' :: A ++ ['"', ' ', '(', '*', ')']
        = ('"' :: A ++ ['"', ' ']) ++ ['(', '*', ')'] := by simp
    rw [he]
    exact listIsInfixOf_append_left _ _ _ (by decide)
  simp only [matchViewAfterQuote, hname, isEmpty_false_of_ne_nil hA,
    drop_append_cons, drop_append_cons_succ]
  simpa using hinf

theorem matchView_plain (A S' : List Char) (hA : A ≠ [])
    (hgood : ∀ c ∈ A, goodChar c = true)
    (hS : S'.take 4 ≠ [' ', '(', '*', ')']) :
    matchViewAfterQuote (A ++ '"' :: S') = some ((String.mk A, false), A.length + 1) := by
  have hname : (A ++ '"' :: S').takeWhile (fun c => c != '"') = A :=
    takeWhile_append_not _ _ _ _ (fun a ha => goodChar_bne_quote a (hgood a ha)) (by decide)
  have hinf : listIsInfixOf ['(', '*', ')'] ('"' :: (A ++ ['"'])) = false := by
    apply paren_infix_false
    intro hmem
    rcases List.mem_cons.1 hmem with he | hmem2
    · exact absurd he (by decide)
    · rcases List.mem_append.1 hmem2 with hmem3 | he
      · exact absurd rfl (goodChar_spec _ (hgood _ hmem3)).2.1
      · simp at he
  simp only [matchViewAfterQuote, hname, isEmpty_false_of_ne_nil hA,
    drop_append_cons, drop_append_cons_succ]
  simp [hS, hinf]

theorem scanViewsFuel_nil (fuel : Nat) : scanViewsFuel fuel [] = [] := by
  cases fuel <;> rfl

theorem drop_append_five (A : List Char) (b1 b2 b3 b4 b5 : Char) (T : List Char) :
    (A ++ b1 :: b2 :: b3 :: b4 :: b5 :: T).drop (A.length + 5) = T := by
  have h : A ++ b1 :: b2 :: b3 :: b4 :: b5 :: T = (A ++ [b1, b2, b3, b4, b5]) ++ T := by simp
  have h2 : (A ++ [b1, b2, b3, b4, b5]).length = A.length + 5 := by simp
  rw [h, ← h2, List.drop_left]

theorem renderView_length_pos (v : ColorView) : 0 < (renderView v).length := by
  simp [renderView]

theorem scanViewsFuel_comma_space (f : Nat) (rest : List Char) :
    scanViewsFuel (f + 2) (',' :: ' ' :: rest) = scanViewsFuel f rest := by
  simp [scanViewsFuel]

theorem scanViewsFuel_render (vs : List ColorView) :
    ∀ fuel, (∀ v ∈ vs, goodName v.name) → (renderViewsLine vs).length ≤ fuel →
    scanViewsFuel fuel (renderViewsLine vs) = vs.map (fun v => (v.name, v.isDefault)) := by
  induction vs with
  | nil => intro fuel _ _; simp [renderViewsLine, scanViewsFuel_nil]
  | cons v vs' ih =>
    intro fuel hgood hfuel
    have hv : goodName v.name := hgood v (by simp)
    have hvA : v.name.data ≠ [] := hv.1
    have hvG : ∀ c ∈ v.name.data, goodChar c = true := hv.2
    cases vs' with
    | nil =>
      have hlen : 0 < (renderViewsLine [v]).length := by
        simp only [renderViewsLine]
        exact renderView_length_pos v
      cases fuel with
      | zero => omega
      | succ f =>
        cases hdef : v.isDefault with
        | true =>
          have hform : renderViewsLine [v]
              = '"' :: (v.name.data ++ '"' :: ' ' :: '(' :: '*' :: ')' :: ([] : List Char)) := by
            simp [renderViewsLine, renderView, hdef]
          rw [hform]
          simp only [scanViewsFuel, if_pos rfl,
            matchView_marker v.name.data [] hvA hvG]
          rw [show v.name.data.length + 5 = v.name.data.length + 5 from rfl]
          rw [drop_append_five]
          simp [scanViewsFuel_nil, hdef]
        | false =>
          have hform : renderViewsLine [v]
              = '"' :: (v.name.data ++ '"' :: ([] : List Char)) := by
            simp [renderViewsLine, renderView, hdef]
          rw [hform]
          simp only [scanViewsFuel, if_pos rfl,
            matchView_plain v.name.data [] hvA hvG (by simp)]
          rw [drop_append_cons_succ]
          simp [scanViewsFuel_nil, hdef]
    | cons v2 vs'' =>
      have hlen2 : 0 < (renderViewsLine (v2 :: vs'')).length := by
        cases hvd : v2.isDefault <;> cases vs'' <;>
          simp [renderViewsLine, renderView, hvd]
      cases fuel with
      | zero =>
        exfalso
        have h1 := renderView_length_pos v
        have : 0 < (renderViewsLine (v :: v2 :: vs'')).length := by
          simp only [renderViewsLine, List.length_append, List.length_cons]
          omega
        omega
      | succ f =>
        have hrest : (renderViewsLine (v2 :: vs'')).length + 2 + (renderView v).length
            = (renderViewsLine (v :: v2 :: vs'')).length := by
          simp [renderViewsLine]
          omega
        cases hdef : v.isDefault with
        | true =>
          have hform : renderViewsLine (v :: v2 :: vs'')
              = '"' :: (v.name.data ++ '"' :: ' ' :: '(' :: '*' :: ')' ::
                  (',' :: ' ' :: renderViewsLine (v2 :: vs''))) := by
            simp [renderViewsLine, renderView, hdef]
          have hlenv : (renderView v).length = v.name.data.length + 6 := by
            simp [renderView, hdef]
          rw [hform]
          simp only [scanViewsFuel, if_pos rfl,
            matchView_marker v.name.data (',' :: ' ' :: renderViewsLine (v2 :: vs'')) hvA hvG]
          rw [drop_append_five]
          have hlenr : (renderViewsLine (v :: v2 :: vs'')).length
              = (renderViewsLine (v2 :: vs'')).length + 2 + (v.name.data.length + 6) := by
            rw [← hrest]
            have : (renderView v).length = v.name.data.length + 6 := hlenv
            omega
          obtain ⟨f2, rfl⟩ : ∃ f2, f = f2 + 2 := ⟨f - 2, by omega⟩
          rw [scanViewsFuel_comma_space]
          rw [ih f2 (fun w hw => hgood w (by simp [hw])) (by omega)]
          simp [hdef]
        | false =>
          have hform : renderViewsLine (v :: v2 :: vs'')
              = '"' :: (v.name.data ++ '"' ::
                  (',' :: ' ' :: renderViewsLine (v2 :: vs''))) := by
            simp [renderViewsLine, renderView, hdef]
          have hlenv : (renderView v).length = v.name.data.length + 2 := by
            simp [renderView, hdef]
          rw [hform]
          simp only [scanViewsFuel, if_pos rfl,
            matchView_plain v.name.data (',' :: ' ' :: renderViewsLine (v2 :: vs'')) hvA hvG
              (by simp)]
          rw [drop_append_cons_succ]
          have hlenr : (renderViewsLine (v :: v2 :: vs'')).length
              = (renderViewsLine (v2 :: vs'')).length + 2 + (v.name.data.length + 2) := by
            rw [← hrest]
            omega
          obtain ⟨f2, rfl⟩ : ∃ f2, f = f2 + 2 := ⟨f - 2, by omega⟩
          rw [scanViewsFuel_comma_space]
          rw [ih f2 (fun w hw => hgood w (by simp [hw])) (by omega)]
          simp [hdef]

theorem renderView_no_lineTerm (v : ColorView) (hv : goodName v.name) :
    ∀ c ∈ renderView v, isLineTerm c = false := by
  intro c hc
  simp only [renderView] at hc
  rcases List.mem_cons.1 hc with rfl | hc2
  · decide
  · rcases List.mem_append.1 hc2 with hc3 | hc4
    · rcases List.mem_append.1 hc3 with hc5 | hc6
      · exact (goodChar_spec c (hv.2 c hc5)).2.2
      · simp at hc6
        subst hc6
        decide
    · cases hdef : v.isDefault <;> rw [hdef] at hc4 <;> simp at hc4
      rcases hc4 with rfl | rfl | rfl | rfl <;> decide

theorem renderViewsLine_no_lineTerm (vs : List ColorView)
    (h : ∀ v ∈ vs, goodName v.name) :
    ∀ c ∈ renderViewsLine vs, isLineTerm c = false := by
  induction vs with
  | nil => intro c hc; simp [renderViewsLine] at hc
  | cons v vs' ih =>
    cases vs' with
    | nil =>
      intro c hc
      simp only [renderViewsLine] at hc
      exact renderView_no_lineTerm v (h v (by simp)) c hc
    | cons v2 vs'' =>
      intro c hc
      simp only [renderViewsLine, List.append_assoc, List.mem_append] at hc
      rcases hc with hc1 | hc2
      · exact renderView_no_lineTerm v (h v (by simp)) c hc1
      · simp at hc2
        rcases hc2 with (rfl | rfl) | hc3
        · decide
        · decide
        · exact ih (fun w hw => h w (by simp [hw])) c hc3

theorem renderViewsLine_ne_nil (vs : List ColorView) (h : vs ≠ []) :
    renderViewsLine vs ≠ [] := by
  cases vs with
  | nil => exact absurd rfl h
  | cons v vs' =>
    cases vs' <;> simp [renderViewsLine, renderView]


theorem afterMarker_eval (name V R : List Char) (isDef : Bool) (k : Nat) (t1 : List Char)
    (ht : t1.drop k = ' ' :: ' ' :: 'v' :: 'i' :: 'e' :: 'w' :: 's' :: ':' :: ' ' ::
      (V ++ '\n' :: R))
    (hV : V ≠ []) (hVlt : ∀ c ∈ V, isLineTerm c = false) :
    afterMarker name isDef k t1
      = some ((String.mk name, isDef, String.mk V),
              name.length + 1 + k + 2 + 7 + V.length) := by
  have hviews : (V ++ '\n' :: R).takeWhile (fun c => !(isLineTerm c)) = V :=
    takeWhile_append_not _ _ _ _ (fun c hc => by simp [hVlt c hc]) (by decide)
  simp only [afterMarker]
  rw [ht]
  rw [show (' ' :: ' ' :: 'v' :: 'i' :: 'e' :: 'w' :: 's' :: ':' :: ' ' ::
      (V ++ '\n' :: R)).takeWhile isWs = [' ', ' '] from rfl]
  rw [show (' ' :: ' ' :: 'v' :: 'i' :: 'e' :: 'w' :: 's' :: ':' :: ' ' ::
      (V ++ '\n' :: R)).drop ([' ', ' '] : List Char).length
      = 'v' :: 'i' :: 'e' :: 'w' :: 's' :: ':' :: ' ' :: (V ++ '\n' :: R) from rfl]
  rw [show ('v' :: 'i' :: 'e' :: 'w' :: 's' :: ':' :: ' ' :: (V ++ '\n' :: R)).take 7
      = ['v', 'i', 'e', 'w', 's', ':', ' '] from rfl]
  rw [show ('v' :: 'i' :: 'e' :: 'w' :: 's' :: ':' :: ' ' :: (V ++ '\n' :: R)).drop 7
      = V ++ '\n' :: R from rfl]
  rw [hviews]
  simp [isEmpty_false_of_ne_nil hV]

theorem matchAfterQuote_render (d : ColorDisplay) (R : List Char)
    (hA : d.name.data ≠ []) (hG : ∀ c ∈ d.name.data, goodChar c = true)
    (hv : d.views ≠ [])
    (hvlt : ∀ c ∈ renderViewsLine d.views, isLineTerm c = false) :
    matchAfterQuote (displayBodyCore d ++ '\n' :: R)
      = some ((d.name, d.isDefault, String.mk (renderViewsLine d.views)),
              (displayBodyCore d).length) := by
  have hVne : renderViewsLine d.views ≠ [] := renderViewsLine_ne_nil d.views hv
  cases hdef : d.isDefault with
  | true =>
    have hshape : displayBodyCore d ++ '\n' :: R
        = d.name.data ++ '"' :: (' ' :: '(' :: '*' :: ')' :: '\n' :: ' ' :: ' ' ::
            'v' :: 'i' :: 'e' :: 'w' :: 's' :: ':' :: ' ' ::
            (renderViewsLine d.views ++ '\n' :: R)) := by
      simp [displayBodyCore, hdef]
    rw [hshape]
    have hname : (d.name.data ++ '"' :: (' ' :: '(' :: '*' :: ')' :: '\n' :: ' ' :: ' ' ::
        'v' :: 'i' :: 'e' :: 'w' :: 's' :: ':' :: ' ' ::
        (renderViewsLine d.views ++ '\n' :: R))).takeWhile (fun c => c != '"')
        = d.name.data :=
      takeWhile_append_not _ _ _ _ (fun a ha => goodChar_bne_quote a (hG a ha)) (by decide)
    simp only [matchAfterQuote]
    rw [hname, isEmpty_false_of_ne_nil hA, drop_append_cons, drop_append_cons_succ]
    rw [if_neg (by decide)]
    rw [if_pos (show (('"' :: (' ' :: '(' :: '*' :: ')' :: '\n' :: ' ' :: ' ' ::
        'v' :: 'i' :: 'e' :: 'w' :: 's' :: ':' :: ' ' ::
        (renderViewsLine d.views ++ '\n' :: R))).take 1 : List Char) = ['"'] from rfl)]
    rw [if_pos (show ((' ' :: '(' :: '*' :: ')' :: '\n' :: ' ' :: ' ' ::
        'v' :: 'i' :: 'e' :: 'w' :: 's' :: ':' :: ' ' ::
        (renderViewsLine d.views ++ '\n' :: R)).take 5 : List Char)
        = [' ', '(', '*', ')', '\n'] from rfl)]
    rw [afterMarker_eval d.name.data (renderViewsLine d.views) R true 5 _ (by rfl) hVne
      (fun c hc => hvlt c hc)]
    have hn : d.name.data.length + 1 + 5 + 2 + 7 + (renderViewsLine d.views).length
        = (displayBodyCore d).length := by
      simp [displayBodyCore, hdef]
      omega
    rw [hn]
  | false =>
    have hshape : displayBodyCore d ++ '\n' :: R
        = d.name.data ++ '"' :: ('\n' :: ' ' :: ' ' ::
            'v' :: 'i' :: 'e' :: 'w' :: 's' :: ':' :: ' ' ::
            (renderViewsLine d.views ++ '\n' :: R)) := by
      simp [displayBodyCore, hdef]
    rw [hshape]
    have hname : (d.name.data ++ '"' :: ('\n' :: ' ' :: ' ' ::
        'v' :: 'i' :: 'e' :: 'w' :: 's' :: ':' :: ' ' ::
        (renderViewsLine d.views ++ '\n' :: R))).takeWhile (fun c => c != '"')
        = d.name.data :=
      takeWhile_append_not _ _ _ _ (fun a ha => goodChar_bne_quote a (hG a ha)) (by decide)
    simp only [matchAfterQuote]
    rw [hname, isEmpty_false_of_ne_nil hA, drop_append_cons, drop_append_cons_succ]
    have c0 : ¬ (false = true) := by decide
    have c1 : (('"' :: ('\n' :: ' ' :: ' ' :: 'v' :: 'i' :: 'e' :: 'w' :: 's' :: ':' :: ' ' ::
        (renderViewsLine d.views ++ '\n' :: R))).take 1) = ['"'] := rfl
    have c2 : (('\n' :: ' ' :: ' ' :: 'v' :: 'i' :: 'e' :: 'w' :: 's' :: ':' :: ' ' ::
        (renderViewsLine d.views ++ '\n' :: R)).take 5) ≠ [' ', '(', '*', ')', '\n'] := by
      rw [show (('\n' :: ' ' :: ' ' :: 'v' :: 'i' :: 'e' :: 'w' :: 's' :: ':' :: ' ' ::
        (renderViewsLine d.views ++ '\n' :: R)).take 5) = ['\n', ' ', ' ', 'v', 'i'] from rfl]
      decide
    have c3 : (('\n' :: ' ' :: ' ' :: 'v' :: 'i' :: 'e' :: 'w' :: 's' :: ':' :: ' ' ::
        (renderViewsLine d.views ++ '\n' :: R)).take 1) = ['\n'] := rfl
    rw [if_neg c0, if_pos c1, if_neg c2, if_pos c3]
    rw [afterMarker_eval d.name.data (renderViewsLine d.views) R false 1 _ (by rfl) hVne
      (fun c hc => hvlt c hc)]
    have hn : d.name.data.length + 1 + 1 + 2 + 7 + (renderViewsLine d.views).length
        = (displayBodyCore d).length := by
      simp [displayBodyCore, hdef]
      omega
    rw [hn]

theorem scanDisplaysFuel_nil (fuel : Nat) : scanDisplaysFuel fuel [] = [] := by
  cases fuel <;> rfl

theorem scanDisplaysFuel_step_nl (f : Nat) (R : List Char) :
    scanDisplaysFuel (f + 1) ('\n' :: R) = scanDisplaysFuel f R := by
  simp [scanDisplaysFuel]

theorem scanDisplaysFuel_render (ds : List ColorDisplay) :
    ∀ fuel, wellFormedCatalog ds → (renderCatalog ds).length ≤ fuel →
    scanDisplaysFuel fuel (renderCatalog ds)
      = ds.map (fun d => (d.name, d.isDefault, String.mk (renderViewsLine d.views))) := by
  induction ds with
  | nil =>
    intro fuel _ _
    simp only [renderCatalog, scanDisplaysFuel_nil, List.map_nil]
  | cons d ds' ih =>
    intro fuel hwf hfuel
    obtain ⟨hgn, hv, hvn⟩ := hwf d (by simp)
    have hvlt : ∀ c ∈ renderViewsLine d.views, isLineTerm c = false :=
      renderViewsLine_no_lineTerm d.views hvn
    have hshape : renderCatalog (d :: ds')
        = '-' :: ' ' :: '"' :: (displayBodyCore d ++ '\n' :: renderCatalog ds') := by
      simp [renderCatalog, renderDisplay]
    have hlen : (renderCatalog (d :: ds')).length
        = 3 + (displayBodyCore d).length + 1 + (renderCatalog ds').length := by
      rw [hshape]
      simp
      omega
    rw [hlen] at hfuel
    rw [hshape]
    obtain ⟨f, rfl⟩ : ∃ f, fuel = f + 1 := ⟨fuel - 1, by omega⟩
    simp only [scanDisplaysFuel]
    rw [if_pos (⟨trivial, rfl⟩ : True ∧
      ((' ' :: '"' :: (displayBodyCore d ++ '\n' :: renderCatalog ds')).take 2
        = [' ', '"']))]
    rw [show (' ' :: '"' :: (displayBodyCore d ++ '\n' :: renderCatalog ds')).drop 2
      = displayBodyCore d ++ '\n' :: renderCatalog ds' from rfl]
    rw [matchAfterQuote_render d (renderCatalog ds') hgn.1 hgn.2 hv hvlt]
    dsimp only
    rw [List.drop_left]
    obtain ⟨f2, rfl⟩ : ∃ f2, f = f2 + 1 := ⟨f - 1, by omega⟩
    rw [scanDisplaysFuel_step_nl]
    rw [ih f2 (fun x hx => hwf x (by simp [hx])) (by omega)]
    simp

theorem parseColorConfigInfo_render (output : String) (ds : List ColorDisplay)
    (hsec : displaySectionOf output = some (renderCatalog ds))
    (hwf : wellFormedCatalog ds) (hne : ds ≠ []) :
    parseColorConfigInfo output = ds := by
  unfold parseColorConfigInfo
  rw [hsec]
  dsimp only
  have hemp : (renderCatalog ds).isEmpty = false := by
    cases ds with
    | nil => exact absurd rfl hne
    | cons d ds' => simp [renderCatalog, renderDisplay]
  rw [hemp]
  rw [if_neg (by decide)]
  rw [show scanDisplays (renderCatalog ds)
      = scanDisplaysFuel (renderCatalog ds).length (renderCatalog ds) from rfl]
  rw [scanDisplaysFuel_render ds _ hwf (le_refl _), List.map_map]
  have hid : ∀ x ∈ ds,
      ((fun t : String × Bool × String =>
          ({ name := t.1, isDefault := t.2.1,
             views := (scanViews t.2.2.data).map
               (fun v => { name := v.1, isDefault := v.2 }) } : ColorDisplay)) ∘
        (fun d : ColorDisplay =>
          (d.name, d.isDefault, String.mk (renderViewsLine d.views)))) x = x := by
    intro x hx
    obtain ⟨hg, hv, hvn⟩ := hwf x hx
    show ({ name := x.name, isDefault := x.isDefault,
            views := (scanViews (String.mk (renderViewsLine x.views)).data).map
              (fun v => { name := v.1, isDefault := v.2 }) } : ColorDisplay) = x
    rw [show (String.mk (renderViewsLine x.views)).data = renderViewsLine x.views from rfl]
    rw [show scanViews (renderViewsLine x.views)
        = scanViewsFuel (renderViewsLine x.views).length (renderViewsLine x.views) from rfl]
    rw [scanViewsFuel_render x.views (renderViewsLine x.views).length hvn (le_refl _)]
    rw [List.map_map]
    have : ∀ v : ColorView,
        ((fun v : String × Bool => ({ name := v.1, isDefault := v.2 } : ColorView)) ∘
          (fun v : ColorView => (v.name, v.isDefault))) v = v := fun v => rfl
    rw [List.map_congr_left (fun v _ => this v)]
    simp
  rw [List.map_congr_left hid]
  simp

/-- C8: for every color-config output whose extracted `Known displays:`
section (terminated by `Named transforms:`) is a well-formed rendering of a
catalog in which exactly one display line carries the `(*)` marker and
each display's views line carries exactly one `(*)`-marked quoted view,
`parseColorConfigInfo` recovers the catalog exactly; in particular exactly
one parsed display has `isDefault = true` and that display has exactly one
view with `isDefault = true`. -/
theorem color_config_wellformed_defaults (output : String) (ds : List ColorDisplay)
    (hsec : displaySectionOf output = some (renderCatalog ds))
    (hwf : wellFormedCatalog ds)
    (hone : (ds.filter (fun d => d.isDefault)).length = 1)
    (hviews : ∀ d ∈ ds, (d.views.filter (fun v => v.isDefault)).length = 1) :
    parseColorConfigInfo output = ds
    ∧ ((parseColorConfigInfo output).filter (fun d => d.isDefault)).length = 1
    ∧ ∀ d ∈ parseColorConfigInfo output, d.isDefault = true →
        (d.views.filter (fun v => v.isDefault)).length = 1 := by
  have hne : ds ≠ [] := by
    intro h
    rw [h] at hone
    simp at hone
  have hp := parseColorConfigInfo_render output ds hsec hwf hne
  exact ⟨hp, by rw [hp]; exact hone, by rw [hp]; intro d hd _; exact hviews d hd⟩

set_option maxRecDepth 8192 in
theorem color_config_wellformed_defaults_witness :
    parseColorConfigInfo ("Known displays:" ++ String.mk (renderCatalog demoCatalog)
        ++ "Named transforms:\n - none") = demoCatalog
    ∧ ((parseColorConfigInfo ("Known displays:" ++ String.mk (renderCatalog demoCatalog)
        ++ "Named transforms:\n - none")).filter (fun d => d.isDefault)).length = 1
    ∧ ∀ d ∈ parseColorConfigInfo ("Known displays:" ++ String.mk (renderCatalog demoCatalog)
        ++ "Named transforms:\n - none"), d.isDefault = true →
        (d.views.filter (fun v => v.isDefault)).length = 1 :=
  color_config_wellformed_defaults _ demoCatalog (by decide)
    (by unfold wellFormedCatalog goodName; decide) (by decide) (by decide)
